import Mathlib

/-!
Verification development for the portable-pedump repository
(src/cxx_demangle.cpp and src/portable_pe_dump.cpp).

Strings are modelled as `List Char` (one `Char` per byte of the C++
`std::string`).  The C++ scanner occasionally dereferences the iterator one
past the last character; for a `std::string` that position holds the
guaranteed NUL terminator, so the embedding treats "read past the end of the
list" as reading `NUL` (which is in none of the code tables, hence yields the
empty string, exactly as the C++ code behaves).
-/

namespace PEDump

/-- The NUL character, the guaranteed terminator of a `std::string` buffer. -/
def NUL : Char := Char.ofNat 0

/-- Table of calling-convention codes (cxx_demangle.cpp, `getCallConv`).
An unknown code yields the empty string. -/
def getCallConv (c : Char) : List Char :=
  if c = 'A' then "__cdecl   ".data
  else if c = 'I' then "__fastcall".data
  else if c = 'E' then "__thiscall".data
  else if c = 'G' then "__stdcall ".data
  else []

/-- Table of type codes (cxx_demangle.cpp, `getTypeName`).
An unknown code yields the empty string. -/
def getTypeName (c : Char) : List Char :=
  if c = 'C' then "signed char   ".data
  else if c = 'D' then "char          ".data
  else if c = 'E' then "unsigned char ".data
  else if c = 'F' then "short         ".data
  else if c = 'G' then "unsigned short".data
  else if c = 'H' then "int           ".data
  else if c = 'I' then "unsigned int  ".data
  else if c = 'J' then "long          ".data
  else if c = 'K' then "unsigned long ".data
  else if c = 'M' then "float         ".data
  else if c = 'N' then "double        ".data
  else if c = 'O' then "long double   ".data
  else if c = 'P' then "void*         ".data
  else if c = 'Q' then "void[]        ".data
  else if c = 'U' then "struct*       ".data
  else if c = 'V' then "class*        ".data
  else if c = 'X' then "void          ".data
  else if c = 'Z' then "...           ".data
  else []

/-- End-of-name test (cxx_demangle.cpp, `endOfNameSection`), expressed on the
remainder of the input that starts at the range's `end` iterator: true when
the iterator is at the end, one before the end, or at a `"@@"` pair. -/
def endOfNameSection (rem : List Char) : Bool :=
  match rem with
  | [] => true
  | [_] => true
  | a :: b :: _ => a = '@' && b = '@'

/-- Leading-character strip of `demangleCFunc`: one `'_'` or `'@'` is
removed before the name is read. -/
def stripLead : List Char → List Char
  | '_' :: r => r
  | '@' :: r => r
  | s => s

/-- C-style fallback (cxx_demangle.cpp, `demangleCFunc`): strip one leading
`'_'`/`'@'`, truncate at the first `'@'`, and append `"()"`. -/
def demangleCFunc (s : List Char) : List Char :=
  (stripLead s).takeWhile (fun c => c ≠ '@') ++ "()".data

/-- Calling-convention / return-type scan shared by `demangleClass` and
`demangleCppFunc`: skip filler characters; if anything is left, the next
character is the calling-convention code, an optional `'_'` ("extended type"
qualifier) is skipped, and the following character (or the NUL terminator if
the input ended) is the return-type code.  Each resolved, non-empty name gets
a trailing space.  Returns the `retType ++ callConv` text that the C++ code
prepends to the result. -/
def convRetPart (filler : Char → Bool) (tail : List Char) : List Char :=
  match tail.dropWhile filler with
  | [] => []
  | c :: rest2 =>
    let callConv := getCallConv c
    let rest3 := match rest2 with
      | '_' :: r => r
      | r => r
    let retType := match rest3 with
      | [] => ([] : List Char)
      | t :: _ => getTypeName t
    (if retType.isEmpty then [] else retType ++ " ".data) ++
    (if callConv.isEmpty then [] else callConv ++ " ".data)

/-- Template-marker handling of `demangleClass`: a class name starting with
`"?$"` is displayed without the marker and with a generic `"<T>"` suffix. -/
def classNameOf (rClassName : List Char) : List Char :=
  match rClassName with
  | '?' :: '$' :: rest => rest ++ "<T>".data
  | other => other

/-- Class-method layout (cxx_demangle.cpp, `demangleClass`).
`tailAfterClass` is the input remainder starting at the class-name range's
`end` iterator. -/
def demangleClass (rClassName rFuncName tailAfterClass : List Char)
    (baseNameOnly : Bool) : List Char :=
  (if baseNameOnly then []
   else convRetPart (fun c => c == '@' || c == 'Q' || c == 'S' || c == '2') tailAfterClass) ++
  classNameOf rClassName ++ "::".data ++ rFuncName ++ "()".data

/-- Free-function layout (cxx_demangle.cpp, `demangleCppFunc`).
`tailAfterFunc` is the input remainder starting at the function-name range's
`end` iterator. -/
def demangleCppFunc (rFuncName tailAfterFunc : List Char)
    (baseNameOnly : Bool) : List Char :=
  (if baseNameOnly then []
   else convRetPart (fun c => c == '@' || c == 'Y') tailAfterFunc) ++
  rFuncName ++ "()".data

/-- ASCII `isalpha` of the C locale. -/
def isAlphaAscii (c : Char) : Bool :=
  ('a' ≤ c && c ≤ 'z') || ('A' ≤ c && c ≤ 'Z')

/-- Trim of the unhandled special-member branch: drop characters while they
are `'_'` or not alphabetic (cxx_demangle.cpp, `demangleSpecial`, default
case). -/
def trimSpecialName (l : List Char) : List Char :=
  l.dropWhile (fun c => c == '_' || !isAlphaAscii c)

/-- Special members (cxx_demangle.cpp, `demangleSpecial`): the function-name
segment is `'?'` followed by a code character; `'0'` is a constructor, `'1'`
a destructor, `'4'` `operator=`, anything else renders as `"???"` after
trimming. -/
def demangleSpecial (rFuncName rClassName : List Char) : List Char :=
  let funcName := rFuncName.drop 2
  let c0 := rFuncName.getD 1 NUL
  if c0 = '0' then
    (if 0 < rClassName.length then rClassName ++ "::".data else []) ++
      funcName ++ "::".data ++ funcName ++ "()".data
  else if c0 = '1' then
    (if 0 < rClassName.length then rClassName ++ "::".data else []) ++
      funcName ++ "::~".data ++ funcName ++ "()".data
  else if c0 = '4' then
    (if 0 < rClassName.length then rClassName ++ "::".data else []) ++
      funcName ++ "::operator=()".data
  else
    rClassName ++ "::".data ++ trimSpecialName funcName ++ "::???".data

/-- Function-name segment: the characters after the leading `'?'` up to the
first `'@'` (cxx_demangle.cpp, `extractSubName` applied in `demangle`).
`rest` is the input without its leading `'?'`. -/
def funcSeg (rest : List Char) : List Char :=
  rest.takeWhile (fun c => c ≠ '@')

/-- Remainder of the input at the function-name range's `end` iterator. -/
def afterFunc (rest : List Char) : List Char :=
  rest.dropWhile (fun c => c ≠ '@')

/-- Class-name segment (empty when `endOfNameSection` stops the scan; a
non-empty remainder always starts with the separating `'@'`, which is
skipped). -/
def classSeg (rest : List Char) : List Char :=
  if endOfNameSection (afterFunc rest) then []
  else (afterFunc rest).tail.takeWhile (fun c => c ≠ '@')

/-- Remainder of the input at the class-name range's `end` iterator (the
input end when no class name was extracted, matching the default-initialized
range of the C++ code). -/
def afterClass (rest : List Char) : List Char :=
  if endOfNameSection (afterFunc rest) then []
  else (afterFunc rest).tail.dropWhile (fun c => c ≠ '@')

/-- Namespace segment, extracted after the class segment the same way. -/
def nsSeg (rest : List Char) : List Char :=
  if endOfNameSection (afterClass rest) then []
  else (afterClass rest).tail.takeWhile (fun c => c ≠ '@')

/-- Dispatch of `demangle` after the leading `'?'` has been checked: special
member, class method, or free function. -/
def demangleCore (rest : List Char) (baseNameOnly : Bool) : List Char :=
  if 2 ≤ (funcSeg rest).length ∧ (funcSeg rest).headD NUL = '?' then
    demangleSpecial (funcSeg rest) (classSeg rest)
  else if 0 < (classSeg rest).length then
    demangleClass (classSeg rest) (funcSeg rest) (afterClass rest) baseNameOnly
  else
    demangleCppFunc (funcSeg rest) (afterFunc rest) baseNameOnly

/-- Assembly of the `'?'`-marked path of `demangle`: a non-empty namespace
segment prefixes the result. -/
def demangleQ (rest : List Char) (baseNameOnly : Bool) : List Char :=
  if 0 < (nsSeg rest).length then nsSeg rest ++ "::".data ++ demangleCore rest baseNameOnly
  else demangleCore rest baseNameOnly

/-- Entry point (cxx_demangle.cpp, `demangle`): empty input is returned
unchanged; input not starting with `'?'` is treated as a C-style name;
otherwise the grammar path runs. -/
def demangle (s : List Char) (baseNameOnly : Bool) : List Char :=
  match s with
  | [] => []
  | c :: rest => if c = '?' then demangleQ rest baseNameOnly else demangleCFunc (c :: rest)

/-- Executable check that `pat` occurs as a leading run of `s`. -/
def listStartsWith : List Char → List Char → Bool
  | [], _ => true
  | _ :: _, [] => false
  | a :: as, b :: bs => a = b && listStartsWith as bs

/-- Executable substring check: `pat` occurs contiguously inside `s`. -/
def containsSub (pat : List Char) : List Char → Bool
  | [] => listStartsWith pat []
  | c :: rest => listStartsWith pat (c :: rest) || containsSub pat rest

/-! ## PE image address resolution (portable_pe_dump.cpp)

Machine integers are modelled as `Nat` with explicit reduction modulo
`4294967296` (2^32, the width of the PE fields) and `18446744073709551616`
(2^64, the width of `std::uintptr_t`) at the points where the C++ code
performs unsigned arithmetic that may wrap. -/

/-- Unsigned 32-bit subtraction: `(a - b) mod 2^32`. -/
def sub32 (a b : Nat) : Nat :=
  (a % 4294967296 + (4294967296 - b % 4294967296)) % 4294967296

/-- Unsigned 64-bit (uintptr) subtraction: `(a - b) mod 2^64`. -/
def sub64 (a b : Nat) : Nat :=
  (a % 18446744073709551616 + (18446744073709551616 - b % 18446744073709551616)) %
    18446744073709551616

/-- Section header fields used by the resolver (portable_pe_dump.cpp,
`ImageSectionHeader`; `virtualSize` is the `misc.virtualSize` union member). -/
structure ImageSectionHeader where
  virtualAddress : Nat
  virtualSize : Nat
  pointerToRawData : Nat
deriving DecidableEq

/-- Linear scan for the first section whose virtual range contains `rva`
(portable_pe_dump.cpp, `findRVASection`).  The upper bound
`virtualAddress + virtualSize` is computed in 32-bit arithmetic, as in the
source. -/
def findRVASection (rva : Nat) : List ImageSectionHeader → Option ImageSectionHeader
  | [] => none
  | s :: rest =>
    if s.virtualAddress ≤ rva ∧
        rva < (s.virtualAddress + s.virtualSize) % 4294967296 then some s
    else findRVASection rva rest

/-- Address resolution (portable_pe_dump.cpp, `addrFromRVA`): `0` when no
section contains the RVA, otherwise `imageBase + rva - delta` with
`delta = virtualAddress - pointerToRawData` computed in 32-bit arithmetic
and the final sum in uintptr (64-bit) arithmetic. -/
def addrFromRVA (rva : Nat) (sections : List ImageSectionHeader) (imageBase : Nat) : Nat :=
  match findRVASection rva sections with
  | none => 0
  | some s => sub64 (imageBase + rva) (sub32 s.virtualAddress s.pointerToRawData)

/-! ## Import table walk (portable_pe_dump.cpp, `dumpImportsSection`) -/

/-- Import descriptor (portable_pe_dump.cpp, `ImageImportDescriptor`). -/
structure ImageImportDescriptor where
  impByNameRVA : Nat
  timeDateStamp : Nat
  forwarderChain : Nat
  nameRVA : Nat
  firstThunkRVA : Nat
deriving DecidableEq

/-- Sentinel test (portable_pe_dump.cpp, `isNullImportDescriptor`): the
`memcmp` against a zero-initialized descriptor succeeds exactly when every
field is zero. -/
def isNullImportDescriptor (d : ImageImportDescriptor) : Bool :=
  d.impByNameRVA == 0 && d.timeDateStamp == 0 && d.forwarderChain == 0 &&
    d.nameRVA == 0 && d.firstThunkRVA == 0

/-- The descriptor loop `for (i = 0; !isNullImportDescriptor(importDesc[i]); ++i)`:
the processed descriptors are the ones before the first all-zero sentinel. -/
def walkDescriptors : List ImageImportDescriptor → List ImageImportDescriptor
  | [] => []
  | d :: rest => if isNullImportDescriptor d then [] else d :: walkDescriptors rest

/-- Read-only view of the loaded file used by the thunk walk: `readU32`
models the 32-bit load of a thunk slot at an absolute address, `readHint`
and `readName` model the reads of the `ImageImportByName` fields
(`ordinalHint` and `funcName`) performed when a name record is produced. -/
structure ImportMemory where
  readU32 : Nat → Nat
  readHint : Nat → Nat
  readName : Nat → List Char

/-- One symbol of the import listing: either ordinal-only (ordinal-flag bit
set; the value printed is `value & 0xFFFF`) or a name with its ordinal hint. -/
inductive ImportRecord where
  | ordinalOnly (ord : Nat)
  | named (hint : Nat) (name : List Char)
deriving DecidableEq

/-- The thunk loop of `dumpImportsSection`: starting at address `t`, read a
thunk; stop at a zero value; with the ordinal-flag bit (`0x80000000`) set
emit an ordinal-only record without touching memory; otherwise resolve the
value as an RVA and read the hint/name pair at the resolved address —
unconditionally, as in the source.  The second component collects every
address at which a hint/name pair was read.  `fuel` bounds the loop, which
the C++ code does not (it trusts a zero thunk to appear). -/
def walkThunks (mem : ImportMemory) (sections : List ImageSectionHeader) (base : Nat) :
    Nat → Nat → List ImportRecord × List Nat
  | 0, _ => ([], [])
  | Nat.succ fuel, t =>
    let v := mem.readU32 t
    if v = 0 then ([], [])
    else if v.land 2147483648 ≠ 0 then
      (ImportRecord.ordinalOnly (v.land 65535) :: (walkThunks mem sections base fuel (t + 4)).1,
       (walkThunks mem sections base fuel (t + 4)).2)
    else
      (ImportRecord.named (mem.readHint (addrFromRVA v sections base))
          (mem.readName (addrFromRVA v sections base)) ::
        (walkThunks mem sections base fuel (t + 4)).1,
       addrFromRVA v sections base :: (walkThunks mem sections base fuel (t + 4)).2)

/-- Thunk-source choice of `dumpImportsSection`: `impByNameRVA`, falling back
to `firstThunkRVA`; both zero marks the module as malformed ("Bad IAT"). -/
def moduleThunkSource (d : ImageImportDescriptor) : Option Nat :=
  if d.impByNameRVA ≠ 0 then some d.impByNameRVA
  else if d.firstThunkRVA ≠ 0 then some d.firstThunkRVA
  else none

/-- Outcome of one module of the import walk. -/
inductive ModuleResult where
  | skippedBadIAT
  | skippedUnresolvedIAT
  | processed (records : List ImportRecord) (derefs : List Nat)
deriving DecidableEq

/-- Per-module body of the import walk: pick the thunk source, resolve it
(`0` short-circuits with "Can't find IAT! Skipping"), then walk the thunks. -/
def processModule (mem : ImportMemory) (sections : List ImageSectionHeader)
    (base fuel : Nat) (d : ImageImportDescriptor) : ModuleResult :=
  match moduleThunkSource d with
  | none => ModuleResult.skippedBadIAT
  | some rva =>
    let t := addrFromRVA rva sections base
    if t = 0 then ModuleResult.skippedUnresolvedIAT
    else
      ModuleResult.processed (walkThunks mem sections base fuel t).1
        (walkThunks mem sections base fuel t).2

/-- The full import walk: every descriptor before the sentinel is processed. -/
def dumpImports (mem : ImportMemory) (sections : List ImageSectionHeader)
    (base fuel : Nat) (descs : List ImageImportDescriptor) : List ModuleResult :=
  (walkDescriptors descs).map (processModule mem sections base fuel)

/-! ## Export table walk (portable_pe_dump.cpp, `dumpExportsSection`) -/

/-- One hexadecimal digit, upper case as printed by `"%X"`. -/
def hexDigitChar (n : Nat) : Char :=
  if n < 10 then Char.ofNat (48 + n) else Char.ofNat (55 + n)

/-- Hexadecimal digits, most significant first; `fuel ≥ n` makes the first
branch unreachable, so the recursion is the usual divide-by-16 one written
with structural (hence executable) recursion on `fuel`. -/
def hexDigitsGo : Nat → Nat → List Char
  | 0, n => [hexDigitChar (n % 16)]
  | Nat.succ fuel, n =>
    if n < 16 then [hexDigitChar n]
    else hexDigitsGo fuel (n / 16) ++ [hexDigitChar (n % 16)]

/-- Hexadecimal digits of `n`, most significant first. -/
def hexDigits (n : Nat) : List Char := hexDigitsGo n n

/-- Hex formatting (portable_pe_dump.cpp, `toHexa`): `"0x"` followed by the
digits zero-padded to `pad` characters (`"0x%0*X"`). -/
def toHexa (val pad : Nat) : List Char :=
  '0' :: 'x' :: (List.replicate (pad - (hexDigits val).length) '0' ++ hexDigits val)

/-- Display truncation (portable_pe_dump.cpp, `truncate`, `maxLen = 60`). -/
def truncate (s : List Char) : List Char :=
  if 60 < s.length then s.take 56 ++ "...".data else s

/-- One row of the export listing (portable_pe_dump.cpp, local `struct FName`). -/
structure FName where
  ord : List Char
  mangled : List Char
  demangled : List Char
deriving DecidableEq

/-- Export directory view (portable_pe_dump.cpp, `ImageExportDirectory`):
the three RVA-addressed parallel tables are materialized as lists —
`functions` has `numberOfFunctions` entries, `ordinals` and `names` have
`numberOfNames` entries each. -/
structure ImageExportDirectory where
  ordinalBase : Nat
  functions : List Nat
  ordinals : List Nat
  names : List Nat
deriving DecidableEq

/-- Address at which a name string is read by the export walk:
`base + (rva - delta)` with the subtraction in 32-bit and the sum in uintptr
arithmetic, as in the source. -/
def exportStrAddr (base delta rva : Nat) : Nat :=
  (base + sub32 rva delta) % 18446744073709551616

/-- Row built for a name-table match `(ordinals[j], names[j])`: the printed
ordinal is `toHexa(ordinals[j], 3)` plus a space — the raw table value, with
no base adjustment. -/
def mkNamedRecord (readStr : Nat → List Char) (base delta : Nat) (p : Nat × Nat) : FName :=
  { ord := toHexa p.1 3 ++ " ".data
    mangled := truncate (readStr (exportStrAddr base delta p.2))
    demangled := demangle (readStr (exportStrAddr base delta p.2)) true }

/-- The inner name loop for ordinal slot `i`: every `j` with
`ordinals[j] == i` yields one row. -/
def namedRecordsFor (dir : ImageExportDirectory) (readStr : Nat → List Char)
    (base delta : Nat) (i : Nat) : List FName :=
  ((dir.ordinals.zip dir.names).filter (fun p => p.1 == i)).map
    (mkNamedRecord readStr base delta)

/-- Forwarder handling: the source tests
`entryPointRVA >= exportsStartRVA && entryPointRVA <= exportsEndRVA`
(a closed interval) and then emits a row whose ordinal column is `"FWD "`. -/
def fwdRecordFor (readStr : Nat → List Char)
    (base delta exportsStart exportsEnd : Nat) (e : Nat) : List FName :=
  if exportsStart ≤ e ∧ e ≤ exportsEnd then
    [{ ord := "FWD ".data
       mangled := truncate (readStr (exportStrAddr base delta e))
       demangled := demangle (readStr (exportStrAddr base delta e)) true }]
  else []

/-- Rows produced for ordinal slot `i` with function-table entry `e`: a zero
entry point is a gap and is skipped; otherwise the name matches and then the
forwarder check. -/
def recordsForEntry (dir : ImageExportDirectory) (readStr : Nat → List Char)
    (base delta exportsStart exportsEnd : Nat) (i e : Nat) : List FName :=
  if e = 0 then []
  else namedRecordsFor dir readStr base delta i ++
    fwdRecordFor readStr base delta exportsStart exportsEnd e

/-- The export collection loop of `dumpExportsSection`, before sorting. -/
def collectExports (dir : ImageExportDirectory) (readStr : Nat → List Char)
    (base delta exportsStart exportsEnd : Nat) : List FName :=
  dir.functions.enum.flatMap
    (fun p => recordsForEntry dir readStr base delta exportsStart exportsEnd p.1 p.2)

/-- Lexicographic strict order on byte strings: the comparison performed by
`std::string::operator<` in the sort comparator. -/
def lexLt : List Char → List Char → Bool
  | _, [] => false
  | [], _ :: _ => true
  | a :: as, b :: bs =>
    if a.toNat < b.toNat then true
    else if b.toNat < a.toNat then false
    else lexLt as bs

/-- Lexicographic reflexive order on byte strings. -/
def lexLe : List Char → List Char → Bool
  | [], _ => true
  | _ :: _, [] => false
  | a :: as, b :: bs =>
    if a.toNat < b.toNat then true
    else if b.toNat < a.toNat then false
    else lexLe as bs

/-- Postcondition of the `std::sort` call in `dumpExportsSection`: the output
is a permutation of the collected rows and adjacent rows never compare
strictly decreasing under the comparator
`a.demangled < b.demangled`.  This is everything `std::sort` guarantees —
in particular it does not fix the relative order of tied rows. -/
def sortOK (input output : List FName) : Prop :=
  input.Perm output ∧
    output.Chain' (fun a b => lexLt b.demangled a.demangled = false)

/-- Position of the first occurrence of `x` in a list. -/
def posIn (x : FName) : List FName → Nat
  | [] => 0
  | y :: ys => if x = y then 0 else posIn x ys + 1

/-- Stability: any two output rows with equal decoded names appear in their
original encounter order. -/
def tieStable (input output : List FName) : Prop :=
  output.Pairwise (fun a b => a.demangled = b.demangled → posIn a input ≤ posIn b input)

/-! ## Theorems about the name decoder -/

/-- Suffixes survive prepending. -/
theorem sufAppend {suf b : List Char} (a : List Char) (h : suf <:+ b) : suf <:+ a ++ b :=
  h.trans (List.suffix_append a b)

/-- A suffix located inside the last append component. -/
theorem suffix_append_of_append (x lit suf : List Char) : suf <:+ x ++ (lit ++ suf) :=
  ⟨x ++ lit, List.append_assoc x lit suf⟩

/-- Every C-style fallback result ends in the empty argument list text. -/
theorem demangleCFunc_shape (s : List Char) : "()".data <:+ demangleCFunc s :=
  List.suffix_append _ _

/-- Every free-function result ends in the empty argument list text. -/
theorem demangleCppFunc_shape (f t : List Char) (b : Bool) :
    "()".data <:+ demangleCppFunc f t b := by
  unfold demangleCppFunc
  exact List.suffix_append _ _

/-- Every class-method result ends in the empty argument list text. -/
theorem demangleClass_shape (c f t : List Char) (b : Bool) :
    "()".data <:+ demangleClass c f t b := by
  unfold demangleClass
  exact List.suffix_append _ _

/-- Every special-member result ends either in the empty argument list text
or in the placeholder marker. -/
theorem demangleSpecial_shape (f c : List Char) :
    ("()".data <:+ demangleSpecial f c) ∨ ("???".data <:+ demangleSpecial f c) := by
  simp only [demangleSpecial]
  split_ifs
  all_goals
    first
    | exact Or.inl (List.suffix_append _ _)
    | exact Or.inl (suffix_append_of_append _ "::operator=".data _)
    | exact Or.inr (suffix_append_of_append _ "::".data _)

/-- The dispatch after the marker keeps the signature shape. -/
theorem demangleCore_shape (rest : List Char) (b : Bool) :
    ("()".data <:+ demangleCore rest b) ∨ ("???".data <:+ demangleCore rest b) := by
  unfold demangleCore
  split_ifs with h1 h2
  · exact demangleSpecial_shape _ _
  · exact Or.inl (demangleClass_shape _ _ _ _)
  · exact Or.inl (demangleCppFunc_shape _ _ _)

/-- The namespace prefixing keeps the signature shape. -/
theorem demangleQ_shape (rest : List Char) (b : Bool) :
    ("()".data <:+ demangleQ rest b) ∨ ("???".data <:+ demangleQ rest b) := by
  unfold demangleQ
  rcases demangleCore_shape rest b with hp | hp
  · refine Or.inl ?_
    split_ifs with h
    · exact sufAppend _ hp
    · exact hp
  · refine Or.inr ?_
    split_ifs with h
    · exact sufAppend _ hp
    · exact hp

/-- C1: the name decoder is total.  It is a function defined on every byte
sequence (no error value exists in its result type); the empty sequence
decodes to the empty string; and every non-empty input decodes to a string
shaped like a signature — it ends in `"()"` or, for the unimplemented
special-member codes, in the `"???"` placeholder — so a failed or partial
decode still degrades to plausible output rather than failing. -/
theorem c1_demangle_total (s : List Char) (b : Bool) :
    (s = [] → demangle s b = []) ∧
    (s ≠ [] →
      ("()".data <:+ demangle s b) ∨ ("???".data <:+ demangle s b)) := by
  constructor
  · intro h; subst h; rfl
  · intro hne
    match s with
    | [] => exact absurd rfl hne
    | c :: rest =>
      simp only [demangle]
      by_cases hc : c = '?'
      · rw [if_pos hc]; exact demangleQ_shape rest b
      · rw [if_neg hc]; exact Or.inl (demangleCFunc_shape (c :: rest))

/-- Witness for C1 at the empty input and a concrete non-empty input. -/
theorem c1_demangle_total_witness :
    (demangle [] true = []) ∧
    (("()".data <:+ demangle "x".data true) ∨ ("???".data <:+ demangle "x".data true)) :=
  ⟨(c1_demangle_total [] true).1 rfl,
   (c1_demangle_total "x".data true).2 (by decide)⟩

/-- C10: the `baseNameOnly` flag is irrelevant for any input that does not
begin with the `'?'` marker (including the empty input), and for any
`'?'`-marked input whose function-name segment denotes a special member
(length at least two and starting with `'?'`): those paths never consult
the flag. -/
theorem c10_base_flag_irrelevant (s : List Char) (b₁ b₂ : Bool) :
    (s.headD NUL ≠ '?' → demangle s b₁ = demangle s b₂) ∧
    (∀ rest, s = '?' :: rest → 2 ≤ (funcSeg rest).length →
      (funcSeg rest).headD NUL = '?' → demangle s b₁ = demangle s b₂) := by
  constructor
  · intro h
    match s with
    | [] => rfl
    | c :: rest =>
      have hc : c ≠ '?' := by simpa using h
      simp only [demangle, if_neg hc]
  · intro rest hs hlen hhead
    subst hs
    simp only [demangle, if_pos rfl, demangleQ, demangleCore, if_pos (And.intro hlen hhead)]

/-- Witness for C10: a C-style name and a special-member name decode
identically under both flag values. -/
theorem c10_base_flag_irrelevant_witness :
    demangle "_foo@8".data true = demangle "_foo@8".data false ∧
    demangle "??4Klass@@QAEXXZ".data true = demangle "??4Klass@@QAEXXZ".data false :=
  ⟨(c10_base_flag_irrelevant "_foo@8".data true false).1 (by decide),
   (c10_base_flag_irrelevant "??4Klass@@QAEXXZ".data true false).2
     "?4Klass@@QAEXXZ".data rfl (by decide) (by decide)⟩

/-- C6 counterexample: decoding `"?Bar@@QAEXXZ"` with `baseNameOnly = false`
yields exactly `"Bar()"`.  The output contains neither the thiscall marker
nor the void marker of the code tables, contrary to the claim. -/
theorem c6_counterexample :
    demangle "?Bar@@QAEXXZ".data false = "Bar()".data ∧
    containsSub "__thiscall".data (demangle "?Bar@@QAEXXZ".data false) = false ∧
    containsSub "void".data (demangle "?Bar@@QAEXXZ".data false) = false := by
  exact ⟨by decide, by decide, by decide⟩

/-- C6 amended: on `"?Bar@@QAEXXZ"` the free-function scan skips only `'@'`
and `'Y'`, so it reads `'Q'` as the calling-convention code and `'A'` as the
type code; neither is in its table, both resolve to the empty string and are
omitted, and the decode yields exactly `"Bar()"` (the function name is
present, no convention or return type is). -/
theorem c6_amended :
    demangle "?Bar@@QAEXXZ".data false = "Bar()".data ∧
    containsSub "Bar".data (demangle "?Bar@@QAEXXZ".data false) = true ∧
    getCallConv 'Q' = [] ∧ getTypeName 'A' = [] := by
  exact ⟨by decide, by decide, by decide, by decide⟩

/-! ## Theorems about the address resolver -/

/-- A found section satisfies the 32-bit containment check. -/
theorem findRVASection_some {rva : Nat} {l : List ImageSectionHeader}
    {s : ImageSectionHeader} (h : findRVASection rva l = some s) :
    s.virtualAddress ≤ rva ∧ rva < (s.virtualAddress + s.virtualSize) % 4294967296 := by
  induction l with
  | nil => simp [findRVASection] at h
  | cons a rest ih =>
    by_cases hc : a.virtualAddress ≤ rva ∧
        rva < (a.virtualAddress + a.virtualSize) % 4294967296
    · rw [findRVASection, if_pos hc] at h
      cases h
      exact hc
    · rw [findRVASection, if_neg hc] at h
      exact ih h

/-- If no section's mathematical range contains the RVA, the scan misses:
the 32-bit upper bound can only shrink the range, never grow it. -/
theorem findRVASection_none {rva : Nat} {l : List ImageSectionHeader}
    (h : ∀ s ∈ l, ¬(s.virtualAddress ≤ rva ∧ rva < s.virtualAddress + s.virtualSize)) :
    findRVASection rva l = none := by
  induction l with
  | nil => rfl
  | cons a rest ih =>
    have ha := h a (List.mem_cons_self a rest)
    have hc : ¬(a.virtualAddress ≤ rva ∧
        rva < (a.virtualAddress + a.virtualSize) % 4294967296) := by
      rintro ⟨h1, h2⟩
      exact ha ⟨h1, lt_of_lt_of_le h2 (Nat.mod_le _ _)⟩
    rw [findRVASection, if_neg hc]
    exact ih (fun s hs => h s (List.mem_cons_of_mem a hs))

/-- C2 counterexample: the single section `⟨va = 0, size = 16, raw = 8⟩` has
`pointerToRawData > virtualAddress`, so the 32-bit delta wraps.  The RVA `0`
lies inside the section's range, yet with `imageBase = 0` the resolver
returns `2^64 - 2^32 + 8` — not `pointerToRawData + (rva - virtualAddress) =
8` (equal here to `imageBase + rva - delta` over the integers) and not the
not-found outcome `0` either: a wrapped garbage offset. -/
theorem c2_counterexample :
    findRVASection 0 [⟨0, 16, 8⟩] = some ⟨0, 16, 8⟩ ∧
    addrFromRVA 0 [⟨0, 16, 8⟩] 0 = 18446744069414584328 ∧
    addrFromRVA 0 [⟨0, 16, 8⟩] 0 ≠ 8 ∧
    addrFromRVA 0 [⟨0, 16, 8⟩] 0 ≠ 0 := by decide

/-- C2 amended: when the section found for `rva` has
`pointerToRawData ≤ virtualAddress` (no 32-bit wrap in the delta), its
virtual address fits in 32 bits and `imageBase + rva` fits in the pointer
width, the resolver deterministically returns
`imageBase + pointerToRawData + (rva - virtualAddress)`; and for an RVA
outside every section's `[virtualAddress, virtualAddress + virtualSize)`
range it returns the not-found outcome `0`, never a wrapped offset. -/
theorem c2_amended (sections : List ImageSectionHeader) (rva imageBase : Nat) :
    (∀ s, findRVASection rva sections = some s →
      s.pointerToRawData ≤ s.virtualAddress → s.virtualAddress < 4294967296 →
      imageBase + rva < 18446744073709551616 →
      addrFromRVA rva sections imageBase =
        imageBase + s.pointerToRawData + (rva - s.virtualAddress)) ∧
    ((∀ s ∈ sections, ¬(s.virtualAddress ≤ rva ∧ rva < s.virtualAddress + s.virtualSize)) →
      addrFromRVA rva sections imageBase = 0) := by
  constructor
  · intro s hfind hwrap hva hfit
    have hin := (findRVASection_some hfind).1
    simp only [addrFromRVA, hfind]
    unfold sub64 sub32
    omega
  · intro h
    simp only [addrFromRVA, findRVASection_none h]

/-- Witness for C2 amended: a well-formed section resolves to
`imageBase + raw + (rva - va)`, and an RVA outside all sections yields 0. -/
theorem c2_amended_witness :
    addrFromRVA 4100 [⟨4096, 100, 512⟩] 1000 = 1000 + 512 + (4100 - 4096) ∧
    addrFromRVA 99999 [⟨4096, 100, 512⟩] 1000 = 0 :=
  ⟨(c2_amended [⟨4096, 100, 512⟩] 4100 1000).1 ⟨4096, 100, 512⟩
      (by decide) (by decide) (by decide) (by decide),
   (c2_amended [⟨4096, 100, 512⟩] 99999 1000).2 (by decide)⟩

/-! ## Theorems about the import walk -/

/-- C3 counterexample: with an empty section table the resolver reports
not-found (the outcome `0`) for the thunk value `5`, yet the walk does not
short-circuit: it reads the hint/name pair at the returned address `0`
(recorded in the dereference trace) and emits a name record built from those
reads. -/
theorem c3_counterexample :
    addrFromRVA 5 [] 0 = 0 ∧
    walkThunks ⟨fun _ => 5, fun _ => 7, fun _ => "X".data⟩ [] 0 1 0 =
      ([ImportRecord.named 7 "X".data], [0]) := by decide

/-- C3 amended: the IAT-start resolution miss does short-circuit — the
module is skipped — but a per-thunk name-entry resolution result is not
checked: for every thunk with a non-zero value and a clear ordinal-flag bit
the walk dereferences whatever address the resolver returned, including the
not-found outcome `0`. -/
theorem c3_amended (mem : ImportMemory) (sections : List ImageSectionHeader)
    (base fuel t : Nat) :
    (∀ d rva, moduleThunkSource d = some rva → addrFromRVA rva sections base = 0 →
      processModule mem sections base fuel d = ModuleResult.skippedUnresolvedIAT) ∧
    (mem.readU32 t ≠ 0 → (mem.readU32 t).land 2147483648 = 0 →
      (walkThunks mem sections base (fuel + 1) t).2 =
        addrFromRVA (mem.readU32 t) sections base ::
          (walkThunks mem sections base fuel (t + 4)).2) := by
  constructor
  · intro d rva hsrc hzero
    simp [processModule, hsrc, hzero]
  · intro h0 hbit
    simp only [walkThunks, if_neg h0, if_neg (not_not_intro hbit)]

/-- Witness for C3 amended: a module whose IAT start does not resolve is
skipped, and a concrete unresolved thunk is still dereferenced. -/
theorem c3_amended_witness :
    processModule ⟨fun _ => 5, fun _ => 7, fun _ => "X".data⟩ [] 0 3 ⟨5, 0, 0, 0, 0⟩ =
      ModuleResult.skippedUnresolvedIAT ∧
    (walkThunks ⟨fun _ => 5, fun _ => 7, fun _ => "X".data⟩ [] 0 1 0).2 =
      addrFromRVA 5 [] 0 ::
        (walkThunks ⟨fun _ => 5, fun _ => 7, fun _ => "X".data⟩ [] 0 0 4).2 :=
  ⟨(c3_amended ⟨fun _ => 5, fun _ => 7, fun _ => "X".data⟩ [] 0 3 0).1
      ⟨5, 0, 0, 0, 0⟩ 5 (by decide) (by decide),
   (c3_amended ⟨fun _ => 5, fun _ => 7, fun _ => "X".data⟩ [] 0 0 0).2
      (by decide) (by decide)⟩

/-- The descriptor loop processes exactly the descriptors before the first
all-zero sentinel; nothing at or past the sentinel is consumed. -/
theorem walkDescriptors_append (ds1 ds2 : List ImageImportDescriptor)
    (nd : ImageImportDescriptor) :
    (∀ x ∈ ds1, isNullImportDescriptor x = false) →
    isNullImportDescriptor nd = true →
    walkDescriptors (ds1 ++ nd :: ds2) = ds1 := by
  induction ds1 with
  | nil =>
    intro _ hnd
    simp [walkDescriptors, hnd]
  | cons a rest ih =>
    intro h1 hnd
    have ha := h1 a (List.mem_cons_self a rest)
    simp only [List.cons_append, walkDescriptors, ha]
    simp only [Bool.false_eq_true, if_false]
    exact congrArg (List.cons a) (ih (fun x hx => h1 x (List.mem_cons_of_mem a hx)) hnd)

/-- C7: the sentinel test accepts exactly the descriptor whose five fields
are all zero — a descriptor with any non-zero field is processed, not
treated as the terminator — and the walk over `ds1 ++ nd :: ds2` (no null
descriptor in `ds1`, `nd` null) yields exactly `ds1`, independent of
whatever `ds2` lies past the sentinel. -/
theorem c7_sentinel (d : ImageImportDescriptor)
    (ds1 ds2 : List ImageImportDescriptor) (nd : ImageImportDescriptor) :
    (isNullImportDescriptor d = true ↔
      (d.impByNameRVA = 0 ∧ d.timeDateStamp = 0 ∧ d.forwarderChain = 0 ∧
        d.nameRVA = 0 ∧ d.firstThunkRVA = 0)) ∧
    ((∀ x ∈ ds1, isNullImportDescriptor x = false) →
      isNullImportDescriptor nd = true →
      walkDescriptors (ds1 ++ nd :: ds2) = ds1) := by
  constructor
  · simp [isNullImportDescriptor, and_assoc]
  · exact walkDescriptors_append ds1 ds2 nd

/-- Witness for C7: a descriptor that is zero except for its timestamp is
not a terminator; the walk stops at the genuine all-zero record and the
descriptor planted past it is never consumed. -/
theorem c7_sentinel_witness :
    walkDescriptors [⟨0, 1, 0, 0, 0⟩, ⟨0, 0, 0, 0, 0⟩, ⟨9, 9, 9, 9, 9⟩] =
      [⟨0, 1, 0, 0, 0⟩] :=
  (c7_sentinel ⟨0, 1, 0, 0, 0⟩ [⟨0, 1, 0, 0, 0⟩] [⟨9, 9, 9, 9, 9⟩] ⟨0, 0, 0, 0, 0⟩).2
    (by decide) (by decide)

/-- C8: a thunk whose ordinal-flag bit (`0x80000000`) is set is emitted as
an ordinal-only record carrying `value & 0xFFFF`, and the step performs no
name dereference: the trace of hint/name reads is exactly that of the rest
of the walk, so the name-resolution path runs only for thunks with the bit
clear. -/
theorem c8_ordinal_no_deref (mem : ImportMemory) (sections : List ImageSectionHeader)
    (base fuel t : Nat) (h0 : mem.readU32 t ≠ 0)
    (hbit : (mem.readU32 t).land 2147483648 ≠ 0) :
    (walkThunks mem sections base (fuel + 1) t).1 =
      ImportRecord.ordinalOnly ((mem.readU32 t).land 65535) ::
        (walkThunks mem sections base fuel (t + 4)).1 ∧
    (walkThunks mem sections base (fuel + 1) t).2 =
      (walkThunks mem sections base fuel (t + 4)).2 := by
  simp [walkThunks, if_neg h0, if_pos hbit]

/-- Witness for C8: the thunk value `0x80000001` yields the ordinal-only
record `1` and no dereference, even though memory at every address holds a
poison hint/name pair. -/
theorem c8_ordinal_no_deref_witness :
    (walkThunks ⟨fun _ => 2147483649, fun _ => 999, fun _ => "POISON".data⟩ [] 0 1 0).1 =
      ImportRecord.ordinalOnly ((2147483649 : Nat).land 65535) ::
        (walkThunks ⟨fun _ => 2147483649, fun _ => 999, fun _ => "POISON".data⟩ [] 0 0 4).1 ∧
    (walkThunks ⟨fun _ => 2147483649, fun _ => 999, fun _ => "POISON".data⟩ [] 0 1 0).2 =
      (walkThunks ⟨fun _ => 2147483649, fun _ => 999, fun _ => "POISON".data⟩ [] 0 0 4).2 :=
  c8_ordinal_no_deref ⟨fun _ => 2147483649, fun _ => 999, fun _ => "POISON".data⟩ [] 0 0 0
    (by decide) (by decide)

/-! ## Theorems about the export walk -/

/-- A named row's ordinal column starts with `'0'`, so it is never the
forwarder marker. -/
theorem toHexa_ne_fwd (n p : Nat) : toHexa n p ++ " ".data ≠ "FWD ".data := by
  intro h
  have h0 : (toHexa n p ++ " ".data).head? = some '0' := rfl
  rw [h] at h0
  exact absurd h0 (by decide)

/-- C4 counterexample: with export directory range `[100, 104]` (start 100,
size 4), a function entry whose RVA is exactly `exportsEnd = 104` is emitted
as a forwarder row (`"FWD "` ordinal column) — the source compares with
`<=`, so the interval is closed, not half-open. -/
theorem c4_counterexample :
    collectExports ⟨1, [104], [], []⟩ (fun _ => "M.f".data) 0 0 100 104 =
      [⟨"FWD ".data, "M.f".data, "M.f()".data⟩] := by decide

/-- C4 amended: for a non-zero entry point `e`, the walk emits a forwarder
row (name-bearing, ordinal column `"FWD "` instead of a numeric ordinal)
exactly when `exportsStart ≤ e ∧ e ≤ exportsEnd` — the closed interval, so
`e = exportsEnd` is classified as a forwarder. -/
theorem c4_forwarder_closed_interval (dir : ImageExportDirectory)
    (readStr : Nat → List Char) (base delta exportsStart exportsEnd i e : Nat)
    (he : e ≠ 0) :
    (∃ r ∈ recordsForEntry dir readStr base delta exportsStart exportsEnd i e,
        r.ord = "FWD ".data) ↔ (exportsStart ≤ e ∧ e ≤ exportsEnd) := by
  constructor
  · rintro ⟨r, hr, hord⟩
    rw [recordsForEntry, if_neg he] at hr
    rcases List.mem_append.mp hr with hn | hf
    · rcases List.mem_map.mp hn with ⟨p, _, hp⟩
      rw [← hp] at hord
      exact absurd hord (toHexa_ne_fwd p.1 3)
    · rw [fwdRecordFor] at hf
      by_cases hc : exportsStart ≤ e ∧ e ≤ exportsEnd
      · exact hc
      · rw [if_neg hc] at hf
        simp at hf
  · intro hc
    refine ⟨⟨"FWD ".data, truncate (readStr (exportStrAddr base delta e)),
      demangle (readStr (exportStrAddr base delta e)) true⟩, ?_, rfl⟩
    rw [recordsForEntry, if_neg he]
    refine List.mem_append.mpr (Or.inr ?_)
    rw [fwdRecordFor, if_pos hc]
    exact List.mem_singleton.mpr rfl

/-- Witness for C4 amended: the boundary entry `e = exportsEnd` produces a
forwarder row. -/
theorem c4_forwarder_closed_interval_witness :
    ∃ r ∈ recordsForEntry ⟨1, [104], [], []⟩ (fun _ => "M.f".data) 0 0 100 104 0 104,
      r.ord = "FWD ".data :=
  (c4_forwarder_closed_interval ⟨1, [104], [], []⟩ (fun _ => "M.f".data)
      0 0 100 104 0 104 (by decide)).mpr (by decide)

/-- C9 counterexample: two export directories identical except for
`ordinalBase` (7 versus 1000) produce the same rows, and the single named
row carries `"0x000 "` — the raw zero-based index from the name-ordinal
table.  Were the ordinal base-adjusted, the row would read `"0x007 "`
(respectively `"0x3E8 "`). -/
theorem c9_counterexample :
    collectExports ⟨7, [100], [0], [50]⟩ (fun _ => "Foo".data) 0 0 200 300 =
      collectExports ⟨1000, [100], [0], [50]⟩ (fun _ => "Foo".data) 0 0 200 300 ∧
    collectExports ⟨7, [100], [0], [50]⟩ (fun _ => "Foo".data) 0 0 200 300 =
      [⟨"0x000 ".data, "Foo".data, "Foo()".data⟩] := by decide

/-- C9 amended: the export rows are entirely independent of `ordinalBase`
(the base is only printed in the directory header), and every row's ordinal
column is either the forwarder marker or the hex-formatted raw value taken
from the name-ordinal table with no base adjustment. -/
theorem c9_ordinal_raw (b1 b2 : Nat) (fns ords nms : List Nat)
    (readStr : Nat → List Char) (base delta s e : Nat) :
    collectExports ⟨b1, fns, ords, nms⟩ readStr base delta s e =
      collectExports ⟨b2, fns, ords, nms⟩ readStr base delta s e ∧
    (∀ r ∈ collectExports ⟨b1, fns, ords, nms⟩ readStr base delta s e,
      r.ord = "FWD ".data ∨ ∃ o ∈ ords, r.ord = toHexa o 3 ++ " ".data) := by
  constructor
  · rfl
  · intro r hr
    rcases List.mem_flatMap.mp hr with ⟨p, _, hp⟩
    rw [recordsForEntry] at hp
    by_cases he : p.2 = 0
    · rw [if_pos he] at hp
      simp at hp
    · rw [if_neg he] at hp
      rcases List.mem_append.mp hp with hn | hf
      · rcases List.mem_map.mp hn with ⟨q, hq, hqr⟩
        rcases q with ⟨q1, q2⟩
        have hq1 : q1 ∈ ords := (List.of_mem_zip (List.mem_filter.mp hq).1).1
        refine Or.inr ⟨q1, hq1, ?_⟩
        rw [← hqr]
        rfl
      · rw [fwdRecordFor] at hf
        by_cases hc : s ≤ p.2 ∧ p.2 ≤ e
        · rw [if_pos hc] at hf
          have hr1 := List.mem_singleton.mp hf
          subst hr1
          exact Or.inl rfl
        · rw [if_neg hc] at hf
          simp at hf

/-- Witness for C9 amended at a concrete directory: `ordinalBase` 7 and 1000
yield the same rows, and the sample row's ordinal is a raw table value. -/
theorem c9_ordinal_raw_witness :
    collectExports ⟨7, [100], [0], [50]⟩ (fun _ => "Foo".data) 0 0 200 300 =
      collectExports ⟨1000, [100], [0], [50]⟩ (fun _ => "Foo".data) 0 0 200 300 ∧
    ((⟨"0x000 ".data, "Foo".data, "Foo()".data⟩ : FName).ord = "FWD ".data ∨
      ∃ o ∈ [0], (⟨"0x000 ".data, "Foo".data, "Foo()".data⟩ : FName).ord =
        toHexa o 3 ++ " ".data) :=
  ⟨(c9_ordinal_raw 7 1000 [100] [0] [50] (fun _ => "Foo".data) 0 0 200 300).1,
   (c9_ordinal_raw 7 1000 [100] [0] [50] (fun _ => "Foo".data) 0 0 200 300).2
     ⟨"0x000 ".data, "Foo".data, "Foo()".data⟩ (by decide)⟩

/-- Strict comparison failing one way is the reflexive comparison the other
way: `std::string` comparison is total. -/
theorem lexLt_false_iff_le (as bs : List Char) :
    lexLt bs as = false ↔ lexLe as bs = true := by
  induction as generalizing bs with
  | nil => cases bs <;> simp [lexLt, lexLe]
  | cons a as' ih =>
    cases bs with
    | nil => simp [lexLt, lexLe]
    | cons b bs' =>
      simp only [lexLt, lexLe]
      split_ifs with h1 h2
      · exfalso
        omega
      · simp
      · simp
      · exact ih bs'

/-- Unfolding of the reflexive comparison on two non-empty strings. -/
theorem lexLe_cons_iff (a b : Char) (as bs : List Char) :
    lexLe (a :: as) (b :: bs) = true ↔
      (a.toNat < b.toNat ∨ (a.toNat = b.toNat ∧ lexLe as bs = true)) := by
  simp only [lexLe]
  split_ifs with h1 h2
  · simp [h1]
  · simp [h1, show a.toNat ≠ b.toNat by omega]
  · simp [h1, show a.toNat = b.toNat by omega]

/-- The reflexive lexicographic comparison is transitive. -/
theorem lexLe_trans (as bs cs : List Char) (h1 : lexLe as bs = true)
    (h2 : lexLe bs cs = true) : lexLe as cs = true := by
  induction as generalizing bs cs with
  | nil => simp [lexLe]
  | cons a as' ih =>
    cases bs with
    | nil => simp [lexLe] at h1
    | cons b bs' =>
      cases cs with
      | nil => simp [lexLe] at h2
      | cons c cs' =>
        rw [lexLe_cons_iff] at h1 h2 ⊢
        rcases h1 with h1 | ⟨h1e, h1r⟩ <;> rcases h2 with h2 | ⟨h2e, h2r⟩
        · exact Or.inl (by omega)
        · exact Or.inl (by omega)
        · exact Or.inl (by omega)
        · exact Or.inr ⟨by omega, ih bs' cs' h1r h2r⟩

/-- A chain of pairwise-adjacent comparisons extends to all pairs. -/
theorem chainLe_pairwise : ∀ l : List FName,
    l.Chain' (fun a b => lexLe a.demangled b.demangled = true) →
    l.Pairwise (fun a b => lexLe a.demangled b.demangled = true)
  | [], _ => List.Pairwise.nil
  | [_], _ => by simp
  | a :: b :: l, h => by
    rw [List.chain'_cons] at h
    have hp := chainLe_pairwise (b :: l) h.2
    constructor
    · intro x hx
      rcases List.mem_cons.mp hx with hxb | hxl
      · subst hxb
        exact h.1
      · have hb := (List.pairwise_cons.mp hp).1 x hxl
        exact lexLe_trans _ _ _ h.1 hb
    · exact hp

/-- C5 counterexample: two collected rows with equal decoded names (`"x()"`)
in encounter order `r1, r2`.  The output `[r2, r1]` satisfies everything the
`std::sort` call guarantees — it is a permutation and adjacent rows never
compare strictly decreasing — yet its tied rows are not in encounter order:
the code does not ensure the stability the claim asserts (`std::sort` is not
a stable sort). -/
theorem c5_counterexample :
    sortOK
      [⟨"0x000 ".data, "A".data, "x()".data⟩, ⟨"0x001 ".data, "B".data, "x()".data⟩]
      [⟨"0x001 ".data, "B".data, "x()".data⟩, ⟨"0x000 ".data, "A".data, "x()".data⟩] ∧
    ¬ tieStable
      [⟨"0x000 ".data, "A".data, "x()".data⟩, ⟨"0x001 ".data, "B".data, "x()".data⟩]
      [⟨"0x001 ".data, "B".data, "x()".data⟩, ⟨"0x000 ".data, "A".data, "x()".data⟩] := by
  constructor
  · exact ⟨List.Perm.swap _ _ _, List.chain'_pair.mpr (by decide)⟩
  · intro h
    have h1 := (List.pairwise_cons.mp h).1 _ (List.mem_cons_self _ _)
    have h2 := h1 rfl
    exact absurd h2 (by decide)

/-- C5 amended: every output admitted by the `std::sort` postcondition is a
permutation of the collected export rows sorted ascending by decoded display
name under ordinary (lexicographic) string comparison; the relative order of
rows with equal decoded names is not specified. -/
theorem c5_sorted (dir : ImageExportDirectory) (readStr : Nat → List Char)
    (base delta s e : Nat) (output : List FName)
    (h : sortOK (collectExports dir readStr base delta s e) output) :
    output.Pairwise (fun a b => lexLe a.demangled b.demangled = true) ∧
    output.Perm (collectExports dir readStr base delta s e) := by
  refine ⟨?_, h.1.symm⟩
  have hc : output.Chain' (fun a b => lexLe a.demangled b.demangled = true) :=
    List.Chain'.imp (fun a b hab => (lexLt_false_iff_le a.demangled b.demangled).mp hab) h.2
  exact chainLe_pairwise output hc

/-- Witness for C5 amended at a concrete one-row directory. -/
theorem c5_sorted_witness :
    ([⟨"0x000 ".data, "Foo".data, "Foo()".data⟩] : List FName).Pairwise
      (fun a b => lexLe a.demangled b.demangled = true) ∧
    ([⟨"0x000 ".data, "Foo".data, "Foo()".data⟩] : List FName).Perm
      (collectExports ⟨7, [100], [0], [50]⟩ (fun _ => "Foo".data) 0 0 200 300) :=
  c5_sorted ⟨7, [100], [0], [50]⟩ (fun _ => "Foo".data) 0 0 200 300
    [⟨"0x000 ".data, "Foo".data, "Foo()".data⟩]
    ⟨by decide, List.chain'_singleton _⟩

end PEDump
